import Mathlib

/-
Verification development for the go-gitlab-irc notification bridge.

The program receives GitLab webhook events over HTTP, renders them into
IRC-colorized text lines, and delivers each line to the channels selected by
a routing table keyed on the project identity.  This file is a shallow
embedding of the two Go source variants (the extended variant with pipeline,
job, merge and branch handling, and the older main.go variant) together with
theorems about the embedded functions.

Modelling conventions:
- Go strings are Lean `String`; the hashes and identifiers in all relevant
  inputs are ASCII, so Go byte slicing `s[0:n]` coincides with taking the
  first `n` characters; a slice whose upper bound exceeds the length panics,
  which is modelled by `Option` (`none` = runtime panic).
- Go maps `map[string][]string` are association lists with unique keys; a map
  read of an absent key yields the zero value (the empty list), as in Go.
- `html/template` interpolation is modelled as plain string substitution (the
  inputs appearing in any theorem below are HTML-inert, so the auto-escaping
  performed by the Go template engine is the identity on them).
- `log.Fatal` (which exits the whole process) and runtime panics are distinct
  constructors of the handler result, so that process-termination behaviour is
  visible in the model.
-/

namespace GitlabIrc

/-- ChannelMap models the Go type `map[string][]string`, represented as an
association list whose keys are unique in the real program. -/
abbrev ChannelMap : Type := List (String × List String)

/-- Mapping is the routing table: a default channel, group mappings keyed by
namespace, and explicit mappings keyed by "namespace/project". -/
structure Mapping where
  DefaultChannel : String
  GroupMappings : ChannelMap
  ExplicitMappings : ChannelMap

/-- contains iterates over the keys of a map and reports whether `entry` is
among them (Go func `contains`). -/
def contains (mapping : ChannelMap) (entry : String) : Bool :=
  mapping.any (fun kv => kv.1 == entry)

/-- mapIndex models the Go map read `mapping[k]`: the stored value when the
key is present, and the zero value (the empty list) when it is absent. -/
def mapIndex (mapping : ChannelMap) (k : String) : List String :=
  match mapping.find? (fun kv => kv.1 == k) with
  | some kv => kv.2
  | none => []

/-- resolveChannels is the channel-selection logic of Go func `sendMessage`
(identical in both source variants): explicit mapping for
"namespace/project" first, then group mapping for the namespace, then the
default channel.  The Go parameter `namespace` is a Lean keyword and is
renamed `nspace`. -/
def resolveChannels (projectName nspace : String) (channelMapping : Mapping) : List String :=
  let full_projectName := nspace ++ "/" ++ projectName
  if contains channelMapping.ExplicitMappings full_projectName then
    mapIndex channelMapping.ExplicitMappings full_projectName
  else if contains channelMapping.GroupMappings nspace then
    mapIndex channelMapping.GroupMappings nspace
  else
    [channelMapping.DefaultChannel]

/-- sendMessage delivers one Privmsg per resolved channel; modelled as the
ordered list of (channel, message) pairs handed to the IRC connection. -/
def sendMessage (message projectName nspace : String) (channelMapping : Mapping) :
    List (String × String) :=
  (resolveChannels projectName nspace channelMapping).map (fun c => (c, message))

/-- A key found by `contains` is the key of some entry of the map, and
`mapIndex` returns the value of that entry (keys are unique in a Go map, so the
first match is the match). -/
theorem mapIndex_of_contains (m : ChannelMap) (k : String) (h : contains m k = true) :
    ∃ p, p ∈ m ∧ p.1 = k ∧ mapIndex m k = p.2 := by
  induction m with
  | nil => simp [contains] at h
  | cons q t ih =>
    by_cases hq : q.1 == k
    · refine ⟨q, List.mem_cons_self q t, by simpa using hq, ?_⟩
      simp [mapIndex, List.find?, hq]
    · have ht : contains t k = true := by
        simp only [contains, List.any_cons, hq, Bool.false_or] at h
        exact h
      obtain ⟨p, hp, hpk, hpv⟩ := ih ht
      refine ⟨p, List.mem_cons_of_mem q hp, hpk, ?_⟩
      simpa [mapIndex, List.find?, hq] using hpv

/-- Claim C1 (counterexample): channel resolution is NOT always non-empty for
every routing table.  When the explicit map stores the empty destination list
under the key "grp/proj", resolution for project ("grp", "proj") returns the
empty list — no channel at all — even though a group mapping for "grp" with a
non-empty list is also present. -/
theorem c1_counterexample :
    resolveChannels "proj" "grp"
      { DefaultChannel := "#default",
        GroupMappings := [("grp", ["#g"])],
        ExplicitMappings := [("grp/proj", [])] } = [] := by rfl

/-- Claim C1 (amended): resolution returns the list stored in the explicit map when
the key "namespace/project" is present, otherwise the list stored in the
group map when the
namespace key is present, otherwise the one-element default list; and the
result is non-empty provided every destination list stored in the two maps is
non-empty (the routing-table invariant). -/
theorem c1_resolve_correct (projectName nspace : String) (channelMapping : Mapping)
    (hexp : ∀ p ∈ channelMapping.ExplicitMappings, p.2 ≠ ([] : List String))
    (hgrp : ∀ p ∈ channelMapping.GroupMappings, p.2 ≠ ([] : List String)) :
    (contains channelMapping.ExplicitMappings (nspace ++ "/" ++ projectName) = true →
      resolveChannels projectName nspace channelMapping =
        mapIndex channelMapping.ExplicitMappings (nspace ++ "/" ++ projectName)) ∧
    (contains channelMapping.ExplicitMappings (nspace ++ "/" ++ projectName) = false →
      contains channelMapping.GroupMappings nspace = true →
      resolveChannels projectName nspace channelMapping =
        mapIndex channelMapping.GroupMappings nspace) ∧
    (contains channelMapping.ExplicitMappings (nspace ++ "/" ++ projectName) = false →
      contains channelMapping.GroupMappings nspace = false →
      resolveChannels projectName nspace channelMapping = [channelMapping.DefaultChannel]) ∧
    resolveChannels projectName nspace channelMapping ≠ [] := by
  refine ⟨?_, ?_, ?_, ?_⟩
  · intro he
    simp [resolveChannels, he]
  · intro he hg
    simp [resolveChannels, he, hg]
  · intro he hg
    simp [resolveChannels, he, hg]
  · unfold resolveChannels
    by_cases he : contains channelMapping.ExplicitMappings (nspace ++ "/" ++ projectName) = true
    · obtain ⟨p, hp, _, hpv⟩ :=
        mapIndex_of_contains channelMapping.ExplicitMappings (nspace ++ "/" ++ projectName) he
      simp only [he, if_true]
      rw [hpv]
      exact hexp p hp
    · have he' : contains channelMapping.ExplicitMappings (nspace ++ "/" ++ projectName) = false :=
        by simpa using he
      by_cases hg : contains channelMapping.GroupMappings nspace = true
      · obtain ⟨p, hp, _, hpv⟩ := mapIndex_of_contains channelMapping.GroupMappings nspace hg
        simp only [he', hg, if_true, Bool.false_eq_true, if_false]
        rw [hpv]
        exact hgrp p hp
      · have hg' : contains channelMapping.GroupMappings nspace = false := by simpa using hg
        simp [he', hg']

/-- Claim C1 witness: the amended theorem applied to a concrete identity and
table satisfying the invariant. -/
theorem c1_resolve_correct_witness :
    resolveChannels "proj" "grp"
      { DefaultChannel := "#d",
        GroupMappings := [("grp", ["#g"])],
        ExplicitMappings := [("grp/proj", ["#e1", "#e2"])] } ≠ [] :=
  (c1_resolve_correct "proj" "grp"
    { DefaultChannel := "#d",
      GroupMappings := [("grp", ["#g"])],
      ExplicitMappings := [("grp/proj", ["#e1", "#e2"])] }
    (by decide) (by decide)).2.2.2

/-- NullCommit is the 40-zero sentinel hash that GitLab sends in place of a
real commit hash when a branch is created or deleted. -/
def NullCommit : String := "0000000000000000000000000000000000000000"

/-- splitChar splits a character list on a separator character; the result
always has at least one element, and has k+1 elements when the separator
occurs k times. -/
def splitChar (sep : Char) : List Char → List (List Char)
  | [] => [[]]
  | c :: cs =>
    let r := splitChar sep cs
    if c = sep then [] :: r
    else
      match r with
      | [] => [[c]]
      | h :: t => (c :: h) :: t

/-- goSplit models the Go call `strings.Split(s, sep)` for the single-character
separators used by the program ("/" and ":"): the substrings between
occurrences of the separator, at least one element, empty string for an empty
input. -/
def goSplit (s : String) (sep : Char) : List String :=
  (splitChar sep s.data).map (fun cs => String.mk cs)

/-- goStringSlice models the Go string slice `s[0:n]`: the first `n`
characters when `n ≤ len(s)`, and a runtime panic (`none`) otherwise.  The
inputs of interest are ASCII hashes, for which Go byte indexing and Lean
character indexing agree. -/
def goStringSlice (s : String) (n : Nat) : Option String :=
  if n ≤ s.data.length then some (String.mk (s.data.take n)) else none

/-- htmlUnescapeString stands for the Go library call `html.UnescapeString`,
which replaces HTML entities by the characters they name.  No claim concerns
entity decoding and every message appearing in a theorem below contains no
entity, so the library call is modelled as the identity (on entity-free
strings the real function is the identity). -/
def htmlUnescapeString (s : String) : String := s

structure Project where
  Name : String
  Namespace : String
  WebURL : String
deriving DecidableEq

structure User where
  Name : String
deriving DecidableEq

structure Author where
  Name : String
deriving DecidableEq

structure Commit where
  Id : String
  Message : String
  Added : List String
  Modified : List String
  Removed : List String
  Author : Author
deriving DecidableEq

structure PushEvent where
  UserName : String
  BeforeCommit : String
  AfterCommit : String
  Project : Project
  Commits : List Commit
  TotalCommits : Int
  Branch : String
deriving DecidableEq

structure Issue where
  Iid : Int
  Action : String
  Title : String
  Description : String
  URL : String
deriving DecidableEq

structure IssueEvent where
  User : User
  Project : Project
  Issue : Issue
deriving DecidableEq

structure Merge where
  Iid : Int
  Action : String
  Title : String
  URL : String
deriving DecidableEq

structure MergeEvent where
  User : User
  Project : Project
  Merge : Merge
deriving DecidableEq

structure Pipeline where
  Id : Int
  Commit : String
  Status : String
  Duration : Float

structure PipelineEvent where
  Pipeline : Pipeline
  Project : Project

structure Repository where
  Name : String
  Homepage : String
  URL : String

structure JobEvent where
  Id : Int
  Name : String
  Status : String
  Duration : Float
  Commit : String
  Repository : Repository

/-- JobStatus models the Go map `JobStatus` together with map-read semantics:
an unrecognized status yields the zero value, the empty string. -/
def JobStatus (status : String) : String :=
  if status == "pending" then "is \x0315pending\x03"
  else if status == "created" then "was \x0315created\x03"
  else if status == "running" then "is \x0307running\x03"
  else if status == "failed" then "has \x0304failed\x03"
  else if status == "success" then "has \x0303succeded\x03"
  else ""

/-- HookActions models the Go map `HookActions` together with map-read
semantics: an unrecognized action yields the zero value, the empty string. -/
def HookActions (action : String) : String :=
  if action == "open" then "opened"
  else if action == "update" then "updated"
  else if action == "close" then "closed"
  else if action == "reopen" then "reopened"
  else if action == "merge" then "merged"
  else ""

/-- pushCompareRender renders the `pushCompareString` template. -/
def pushCompareRender (e : PushEvent) : String :=
  "[\x0312" ++ e.Project.Name ++ "\x03] " ++ e.UserName ++ " pushed " ++
    toString e.TotalCommits ++ " commits to \x0305" ++ e.Branch ++ "\x03 " ++
    e.Project.WebURL ++ "/compare/" ++ e.BeforeCommit ++ "..." ++ e.AfterCommit

/-- pushCommitLogRender renders the `pushCommitLogString` template (used when
the before hash is the null sentinel, so no compare link exists). -/
def pushCommitLogRender (e : PushEvent) : String :=
  "[\x0312" ++ e.Project.Name ++ "\x03] " ++ e.UserName ++ " pushed " ++
    toString e.TotalCommits ++ " commits to \x0305" ++ e.Branch ++ "\x03 " ++
    e.Project.WebURL ++ "/commits/" ++ e.Branch

/-- branchCreateRender renders the `branchCreateString` template. -/
def branchCreateRender (e : PushEvent) : String :=
  "[\x0312" ++ e.Project.Name ++ "\x03] " ++ e.UserName ++
    " created the branch \x0305" ++ e.Branch ++ "\x03"

/-- branchDeleteRender renders the `branchDeleteString` template. -/
def branchDeleteRender (e : PushEvent) : String :=
  "[\x0312" ++ e.Project.Name ++ "\x03] " ++ e.UserName ++
    " deleted the branch \x0305" ++ e.Branch ++ "\x03"

/-- CommitContext is the per-commit projection built inside the push loop. -/
structure CommitContext where
  ShortID : String
  Message : String
  Author : Author
  AddedFiles : Nat
  ModifiedFiles : Nat
  RemovedFiles : Nat
deriving DecidableEq

/-- commitRender renders the `commitString` template. -/
def commitRender (c : CommitContext) : String :=
  "\x0315" ++ c.ShortID ++ "\x03 (\x0303+" ++ toString c.AddedFiles ++
    "\x03|\x0308±" ++ toString c.ModifiedFiles ++ "\x03|\x0304-" ++
    toString c.RemovedFiles ++ "\x03) \x0306" ++ c.Author.Name ++ "\x03: " ++ c.Message

/-- issueRender renders the `issueString` template. -/
def issueRender (e : IssueEvent) : String :=
  "[\x0312" ++ e.Project.Name ++ "\x03] " ++ e.User.Name ++ " " ++
    e.Issue.Action ++ " issue \x0308#" ++ toString e.Issue.Iid ++ "\x03: " ++
    e.Issue.Title ++ " " ++ e.Issue.URL

/-- mergeRender renders the `mergeString` template. -/
def mergeRender (e : MergeEvent) : String :=
  "[\x0312" ++ e.Project.Name ++ "\x03] " ++ e.User.Name ++ " " ++
    e.Merge.Action ++ " merge request \x0308#" ++ toString e.Merge.Iid ++ "\x03: " ++
    e.Merge.Title ++ " " ++ e.Merge.URL

/-- pipelineCreateRender renders the `pipelineCreateString` template. -/
def pipelineCreateRender (e : PipelineEvent) : String :=
  "[\x0312" ++ e.Project.Name ++ "\x03] Pipeline for commit " ++
    e.Pipeline.Commit ++ " " ++ e.Pipeline.Status ++ " " ++
    e.Project.WebURL ++ "/pipelines/" ++ toString e.Pipeline.Id

/-- pipelineCompleteRender renders the `pipelineCompleteString` template. -/
def pipelineCompleteRender (e : PipelineEvent) : String :=
  "[\x0312" ++ e.Project.Name ++ "\x03] Pipeline for commit " ++
    e.Pipeline.Commit ++ " " ++ e.Pipeline.Status ++ " in " ++
    toString e.Pipeline.Duration ++ " seconds " ++
    e.Project.WebURL ++ "/pipelines/" ++ toString e.Pipeline.Id

/-- jobCompleteRender renders the `jobCompleteString` template. -/
def jobCompleteRender (e : JobEvent) : String :=
  "[\x0312" ++ e.Repository.Name ++ "\x03] Job \x0308" ++ e.Name ++
    " for commit " ++ e.Commit ++ " " ++ e.Status ++ " in " ++
    toString e.Duration ++ " seconds " ++ e.Repository.Homepage ++
    "/-/jobs/" ++ toString e.Id

/-- HandlerResult is the observable outcome of one request: the ordered list
of message texts handed to `sendMessage` (each targeted at the project identity
of the event), or a runtime panic carrying the messages already sent
before the panic, or a `log.Fatal` call that terminates the whole process
(which sends nothing). -/
inductive HandlerResult where
  | ok (msgs : List String)
  | panicked (sent : List String)
  | fatal
deriving DecidableEq

/-- extractBranch is the branch-extraction step
`strings.Split(pushEvent.Branch, "/")[2]` shared by both source variants:
the component at index 2, a panic (`none`) when the split yields fewer than
three components. -/
def extractBranch (ref : String) : Option String :=
  (goSplit ref '/')[2]?

/-- mkCommitContext builds the `CommitContext` from one commit: the first 7
characters of the hash (a panic on a shorter hash), the HTML-unescaped
message, the author and the three file counts. -/
def mkCommitContext (c : Commit) : Option CommitContext :=
  match goStringSlice c.Id 7 with
  | none => none
  | some sid =>
    some { ShortID := sid, Message := htmlUnescapeString c.Message, Author := c.Author,
           AddedFiles := c.Added.length, ModifiedFiles := c.Modified.length,
           RemovedFiles := c.Removed.length }

/-- renderCommitLines is the per-commit loop: each commit is rendered and
sent in order; a too-short hash panics, keeping the lines already sent.
Returns (lines sent, whether the loop panicked). -/
def renderCommitLines : List Commit → List String × Bool
  | [] => ([], false)
  | c :: cs =>
    match mkCommitContext c with
    | none => ([], true)
    | some ctx =>
      let r := renderCommitLines cs
      (commitRender ctx :: r.1, r.2)

/-- pushRest is the `TotalCommits > 0` tail of the push handler after the
summary line has been chosen: `Commits[0:3]` truncation (a panic when the
count claims more than 3 but fewer than 3 are present), the commit loop, and
the "and N more commits." summary.  `sent` holds the messages already sent
(a branch-create line, when present). -/
def pushRest (ev : PushEvent) (sent : List String) (summary : String) : HandlerResult :=
  let commits? : Option (List Commit) :=
    if ev.TotalCommits > 3 then
      if 3 ≤ ev.Commits.length then some (ev.Commits.take 3) else none
    else some ev.Commits
  match commits? with
  | none => .panicked (sent ++ [summary])
  | some cs =>
    let r := renderCommitLines cs
    if r.2 then .panicked (sent ++ [summary] ++ r.1)
    else
      let more :=
        if ev.TotalCommits > 3 then
          ["and " ++ toString (ev.TotalCommits - 3) ++ " more commits."]
        else []
      .ok (sent ++ [summary] ++ r.1 ++ more)

/-- handlePush is the "Push Hook" branch of the extended variant: branch
extraction first, then the null-commit sentinel checks on the raw hashes
(branch deleted when the after hash is the sentinel, branch created when the
before hash is), then — only when `TotalCommits > 0` — a summary line (the
commit-log form when the before hash is the sentinel, otherwise the compare
form with both hashes shortened to 7 characters), the first commits, and the
"more commits" line when more than 3 were pushed. -/
def handlePush (ev0 : PushEvent) : HandlerResult :=
  match extractBranch ev0.Branch with
  | none => .panicked []
  | some b =>
    let ev : PushEvent := { ev0 with Branch := b }
    if ev.AfterCommit == NullCommit then
      .ok [branchDeleteRender ev]
    else
      let created := if ev.BeforeCommit == NullCommit then [branchCreateRender ev] else []
      if ev.TotalCommits > 0 then
        if ev.BeforeCommit == NullCommit then
          pushRest ev created (pushCommitLogRender ev)
        else
          match goStringSlice ev.BeforeCommit 7, goStringSlice ev.AfterCommit 7 with
          | some b7, some a7 =>
            let ev2 : PushEvent := { ev with BeforeCommit := b7, AfterCommit := a7 }
            pushRest ev2 created (pushCompareRender ev2)
          | _, _ => .panicked created
      else
        .ok created

/-- handlePipelineHook is the "Pipeline Hook" branch: decode failure calls
`log.Fatal`; a pending pipeline is dropped before anything else; otherwise
the commit hash is shortened (a panic on a short hash) and a message is
rendered only for the statuses running, success and failed. -/
def handlePipelineHook : Option PipelineEvent → HandlerResult
  | none => .fatal
  | some ev0 =>
    if ev0.Pipeline.Status == "pending" then
      .ok []
    else
      match goStringSlice ev0.Pipeline.Commit 7 with
      | none => .panicked []
      | some c7 =>
        let ev : PipelineEvent := { ev0 with Pipeline := { ev0.Pipeline with Commit := c7 } }
        if ev.Pipeline.Status == "running" then
          let ev : PipelineEvent :=
            { ev with Pipeline := { ev.Pipeline with Status := JobStatus ev.Pipeline.Status } }
          .ok [pipelineCreateRender ev]
        else if ev.Pipeline.Status == "success" || ev.Pipeline.Status == "failed" then
          let ev : PipelineEvent :=
            { ev with Pipeline := { ev.Pipeline with Status := JobStatus ev.Pipeline.Status } }
          .ok [pipelineCompleteRender ev]
        else
          .ok []

/-- handleJobHook is the "Job Hook" branch: decode failure calls `log.Fatal`;
a status other than success or failed is dropped; otherwise the commit hash
is shortened (a panic on a short hash), the namespace is parsed from the Git
URL (`Split(Split(url, ":")[1], "/")[0]`, a panic when the URL has no colon;
it only selects the delivery channels), the status is colorized and one line
is rendered. -/
def handleJobHook : Option JobEvent → HandlerResult
  | none => .fatal
  | some ev0 =>
    if ev0.Status != "success" && ev0.Status != "failed" then
      .ok []
    else
      match goStringSlice ev0.Commit 7 with
      | none => .panicked []
      | some c7 =>
        let ev : JobEvent := { ev0 with Commit := c7 }
        match (goSplit ev.Repository.URL ':')[1]? with
        | none => .panicked []
        | some part =>
          let _nspace := (goSplit part '/').headD ""
          let ev : JobEvent := { ev with Status := JobStatus ev.Status }
          .ok [jobCompleteRender ev]

/-- handleMergeHook is the "Merge Request Hook" branch: decode failure calls
`log.Fatal`; the action is mapped through `HookActions` (empty string for an
unrecognized action, by Go map-read semantics) and one line is rendered. -/
def handleMergeHook : Option MergeEvent → HandlerResult
  | none => .fatal
  | some ev0 =>
    let ev : MergeEvent :=
      { ev0 with Merge := { ev0.Merge with Action := HookActions ev0.Merge.Action } }
    .ok [mergeRender ev]

/-- handleIssueHook is the "Issue Hook" branch: decode failure calls
`log.Fatal`; the action is mapped through `HookActions` and one line is
rendered. -/
def handleIssueHook : Option IssueEvent → HandlerResult
  | none => .fatal
  | some ev0 =>
    let ev : IssueEvent :=
      { ev0 with Issue := { ev0.Issue with Action := HookActions ev0.Issue.Action } }
    .ok [issueRender ev]

/-- handlePushHook is the "Push Hook" branch including its decode step: a
decode failure is logged with `log.Println` and the request returns with no
message (the one branch that does NOT call `log.Fatal`). -/
def handlePushHook : Option PushEvent → HandlerResult
  | none => .ok []
  | some ev => handlePush ev

/-- RequestBody carries, for each event shape, what `json.Decode` into that
shape would yield for the request body (`none` = decode failure). -/
structure RequestBody where
  asPipeline : Option PipelineEvent
  asJob : Option JobEvent
  asMerge : Option MergeEvent
  asIssue : Option IssueEvent
  asPush : Option PushEvent

/-- CreateFunctionNotifyFunction is the dispatcher of the extended variant:
the switch on the X-Gitlab-Event header value; an unknown event type is
logged and dropped. -/
def CreateFunctionNotifyFunction (eventType : String) (body : RequestBody) : HandlerResult :=
  if eventType == "Pipeline Hook" then handlePipelineHook body.asPipeline
  else if eventType == "Job Hook" then handleJobHook body.asJob
  else if eventType == "Merge Request Hook" || eventType == "Merge Request Event" then
    handleMergeHook body.asMerge
  else if eventType == "Issue Hook" || eventType == "Issue Event" then
    handleIssueHook body.asIssue
  else if eventType == "Push Hook" || eventType == "Push Event" then
    handlePushHook body.asPush
  else
    .ok []

/-- Claim C2 (counterexample): branch extraction keeps only the component at
index 2, it does not rejoin the remaining components, so the ref
"refs/heads/feature/x" yields the branch name "feature" and not
"feature/x". -/
theorem c2_counterexample :
    extractBranch "refs/heads/feature/x" = some "feature" ∧
    extractBranch "refs/heads/feature/x" ≠ some "feature/x" := by decide

/-- Claim C2 (amended): for every ref whose split on "/" has at least three
components, the branch name used for rendering is exactly the single
component at index 2 of the split (components beyond the third are
discarded, not rejoined); a ref with fewer components is a runtime panic. -/
theorem c2_branch_third_component (ref : String) (h : 3 ≤ (goSplit ref '/').length) :
    extractBranch ref = some ((goSplit ref '/').get ⟨2, by omega⟩) := by
  unfold extractBranch
  rw [List.getElem?_eq_getElem (by omega)]
  simp [List.get_eq_getElem]

/-- Claim C2 witness: the amended theorem at the ref taken from the example in
the spec, where the extracted branch evaluates to "feature". -/
theorem c2_branch_third_component_witness :
    extractBranch "refs/heads/feature/x" =
      some ((goSplit "refs/heads/feature/x" '/').get ⟨2, by decide⟩) :=
  c2_branch_third_component "refs/heads/feature/x" (by decide)

/-- failBody is a request body on which every decode attempt fails
(malformed JSON fails to decode into any of the event shapes). -/
def failBody : RequestBody :=
  { asPipeline := none, asJob := none, asMerge := none, asIssue := none, asPush := none }

/-- Claim C3 (code bug): a JSON decode failure does NOT stay inside the
request for most event kinds — the pipeline, job, merge and issue branches
call `log.Fatal`, which terminates the whole process; only the push branch
logs the error and isolates the failure to the request, as the claim (and
the spec, which flags this inconsistency in the source) requires. -/
theorem c3_decode_failure_terminates_process :
    CreateFunctionNotifyFunction "Pipeline Hook" failBody = HandlerResult.fatal ∧
    CreateFunctionNotifyFunction "Job Hook" failBody = HandlerResult.fatal ∧
    CreateFunctionNotifyFunction "Merge Request Hook" failBody = HandlerResult.fatal ∧
    CreateFunctionNotifyFunction "Issue Hook" failBody = HandlerResult.fatal ∧
    CreateFunctionNotifyFunction "Push Hook" failBody = HandlerResult.ok [] :=
  ⟨rfl, rfl, rfl, rfl, rfl⟩

/-- Claim C4 (counterexample): hash shortening is the Go slice `id[0:7]`
(`id[0:8]` in the second variant), which panics on a hash shorter than the
slice width instead of returning it unchanged or failing in a defined way:
on the 5-character hash "abcde" the commit projection panics. -/
theorem c4_counterexample :
    mkCommitContext
        { Id := "abcde", Message := "m", Added := [], Modified := [], Removed := [],
          Author := { Name := "a" } } = none ∧
    goStringSlice "abcde" 7 = none ∧
    goStringSlice "abcde" 8 = none := by decide

/-- Claim C4 (amended): a commit hash of length at least 7 is truncated to
its first 7 characters (and one of length exactly 7 is returned unchanged),
but a hash shorter than 7 characters makes the commit projection panic — it
is not returned unchanged and there is no defined error; the second variant
slices to 8 characters and panics below length 8 in the same way. -/
theorem c4_shorten_hash (c : Commit) :
    (7 ≤ c.Id.length →
      mkCommitContext c =
        some { ShortID := String.mk (c.Id.data.take 7), Message := htmlUnescapeString c.Message,
               Author := c.Author, AddedFiles := c.Added.length,
               ModifiedFiles := c.Modified.length, RemovedFiles := c.Removed.length }) ∧
    (c.Id.length = 7 →
      mkCommitContext c =
        some { ShortID := c.Id, Message := htmlUnescapeString c.Message,
               Author := c.Author, AddedFiles := c.Added.length,
               ModifiedFiles := c.Modified.length, RemovedFiles := c.Removed.length }) ∧
    (c.Id.length < 7 → mkCommitContext c = none) ∧
    (∀ s : String, s.length < 8 → goStringSlice s 8 = none) := by
  refine ⟨?_, ?_, ?_, ?_⟩
  · intro h
    have h' : 7 ≤ c.Id.data.length := h
    unfold mkCommitContext goStringSlice
    rw [if_pos h']
  · intro h
    have h' : c.Id.data.length = 7 := h
    unfold mkCommitContext goStringSlice
    rw [if_pos (le_of_eq h'.symm), List.take_of_length_le (le_of_eq h')]
  · intro h
    have h' : c.Id.data.length < 7 := h
    unfold mkCommitContext goStringSlice
    rw [if_neg (by omega)]
  · intro s hs
    have hs' : s.data.length < 8 := hs
    unfold goStringSlice
    rw [if_neg (by omega)]

/-- Claim C4 witness: the amended theorem at a 7-character hash, which is
returned unchanged. -/
theorem c4_shorten_hash_witness :
    mkCommitContext
        { Id := "abcdefg", Message := "m", Added := ["f1"], Modified := [], Removed := [],
          Author := { Name := "a" } } =
      some { ShortID := "abcdefg", Message := htmlUnescapeString "m",
             Author := { Name := "a" }, AddedFiles := 1, ModifiedFiles := 0,
             RemovedFiles := 0 } :=
  (c4_shorten_hash
      { Id := "abcdefg", Message := "m", Added := ["f1"], Modified := [], Removed := [],
        Author := { Name := "a" } }).2.1 (by decide)

/-- Claim C7: a pipeline event with status "pending" is dropped before any
other processing — in particular before the commit-hash shortening — and
produces zero rendered and zero delivered messages. -/
theorem c7_pipeline_pending_dropped (body : RequestBody) (ev : PipelineEvent)
    (hb : body.asPipeline = some ev) (h : ev.Pipeline.Status = "pending") :
    CreateFunctionNotifyFunction "Pipeline Hook" body = HandlerResult.ok [] := by
  simp [CreateFunctionNotifyFunction, hb, handlePipelineHook, h]

/-- Claim C7 witness: a concrete pending pipeline event, whose 3-character
commit hash also shows that the drop happens before hash shortening (the
shortening of a 3-character hash would panic). -/
theorem c7_pipeline_pending_dropped_witness :
    CreateFunctionNotifyFunction "Pipeline Hook"
      { asPipeline :=
          some { Pipeline := { Id := 1, Commit := "abc", Status := "pending", Duration := 0.0 },
                 Project := { Name := "p", Namespace := "g", WebURL := "u" } },
        asJob := none, asMerge := none, asIssue := none, asPush := none } =
      HandlerResult.ok [] :=
  c7_pipeline_pending_dropped _ _ rfl rfl

/-- Claim C10: a job event whose build status is neither "success" nor
"failed" is dropped entirely: zero rendered and zero delivered messages. -/
theorem c10_job_noise_dropped (body : RequestBody) (ev : JobEvent)
    (hb : body.asJob = some ev) (h1 : ev.Status ≠ "success") (h2 : ev.Status ≠ "failed") :
    CreateFunctionNotifyFunction "Job Hook" body = HandlerResult.ok [] := by
  have b1 : (ev.Status == "success") = false := beq_eq_false_iff_ne.mpr h1
  have b2 : (ev.Status == "failed") = false := beq_eq_false_iff_ne.mpr h2
  simp [CreateFunctionNotifyFunction, hb, handleJobHook, bne, b1, b2]

/-- Claim C10 witness: a concrete running job event produces no message; its
3-character commit hash also shows the drop happens before hash
shortening. -/
theorem c10_job_noise_dropped_witness :
    CreateFunctionNotifyFunction "Job Hook"
      { asPipeline := none,
        asJob := some { Id := 9, Name := "build", Status := "running", Duration := 1.5,
                        Commit := "abc",
                        Repository := { Name := "p", Homepage := "h", URL := "git@host:g/p.git" } },
        asMerge := none, asIssue := none, asPush := none } =
      HandlerResult.ok [] :=
  c10_job_noise_dropped _ _ rfl (by decide) (by decide)

/-- thirdComponent is the component at index 2 of a split on "/" (the empty
string when the split is too short; only used under a length hypothesis). -/
def thirdComponent (ref : String) : String :=
  (goSplit ref '/').getD 2 ""

/-- extractBranch under the well-formedness bound: the branch is the third
component of the ref. -/
theorem extractBranch_eq_third (ref : String) (h : 3 ≤ (goSplit ref '/').length) :
    extractBranch ref = some (thirdComponent ref) := by
  unfold extractBranch thirdComponent
  rw [List.getD_eq_getElem?_getD, List.getElem?_eq_getElem (by omega)]
  rfl

/-- expectedCommitLine is the commit line rendered for a commit whose hash
has at least 7 characters. -/
def expectedCommitLine (c : Commit) : String :=
  commitRender { ShortID := String.mk (c.Id.data.take 7),
                 Message := htmlUnescapeString c.Message, Author := c.Author,
                 AddedFiles := c.Added.length, ModifiedFiles := c.Modified.length,
                 RemovedFiles := c.Removed.length }

/-- When every commit hash is long enough the commit loop renders one line
per commit, in order, and does not panic. -/
theorem renderCommitLines_ok (cs : List Commit) (h : ∀ c ∈ cs, 7 ≤ c.Id.length) :
    renderCommitLines cs = (cs.map expectedCommitLine, false) := by
  induction cs with
  | nil => rfl
  | cons c cs ih =>
    have hc : 7 ≤ c.Id.data.length := h c (List.mem_cons_self c cs)
    have htl := ih (fun x hx => h x (List.mem_cons_of_mem c hx))
    simp only [renderCommitLines, mkCommitContext, goStringSlice]
    rw [if_pos hc]
    simp [htl, expectedCommitLine]

/-- Claim C8 (counterexample): a push event with 0 commits and non-sentinel
before/after hashes produces NO message at all — in particular it does not
produce the push-summary line, because the summary is only rendered when the
commit count is positive. -/
theorem c8_counterexample :
    handlePush
        { UserName := "u", BeforeCommit := "1111111111", AfterCommit := "2222222222",
          Project := { Name := "p", Namespace := "g", WebURL := "w" },
          Commits := [], TotalCommits := 0, Branch := "refs/heads/main" } =
      HandlerResult.ok [] ∧
    HandlerResult.ok ([] : List String) ≠
      HandlerResult.ok
        [pushCompareRender
          { UserName := "u", BeforeCommit := "1111111", AfterCommit := "2222222",
            Project := { Name := "p", Namespace := "g", WebURL := "w" },
            Commits := [], TotalCommits := 0, Branch := "main" }] := by decide

/-- Claim C8 (amended): a push event with 0 commits produces no commit line,
no "more commits" line and also no push-summary line; the only possible
output is a single branch-delete line (after hash = sentinel) or a single
branch-create line (before hash = sentinel), and with two non-sentinel
hashes nothing is sent at all. -/
theorem c8_zero_commit_push (ev : PushEvent)
    (hbr : 3 ≤ (goSplit ev.Branch '/').length)
    (hzero : ev.TotalCommits = 0) :
    handlePush ev =
      HandlerResult.ok
        (if ev.AfterCommit = NullCommit then
          [branchDeleteRender { ev with Branch := thirdComponent ev.Branch }]
        else if ev.BeforeCommit = NullCommit then
          [branchCreateRender { ev with Branch := thirdComponent ev.Branch }]
        else []) := by
  unfold handlePush
  rw [extractBranch_eq_third ev.Branch hbr]
  by_cases ha : ev.AfterCommit = NullCommit
  · simp [ha]
  · by_cases hb : ev.BeforeCommit = NullCommit
    · simp [ha, hb, hzero]
    · simp [ha, hb, hzero]

/-- Claim C8 witness: the amended theorem at a concrete branch-creation push
with 0 commits, which yields exactly the branch-create line. -/
theorem c8_zero_commit_push_witness :
    handlePush
        { UserName := "u", BeforeCommit := NullCommit, AfterCommit := "2222222222",
          Project := { Name := "p", Namespace := "g", WebURL := "w" },
          Commits := [], TotalCommits := 0, Branch := "refs/heads/main" } =
      HandlerResult.ok
        (if ("2222222222" : String) = NullCommit then
          [branchDeleteRender
            { UserName := "u", BeforeCommit := NullCommit, AfterCommit := "2222222222",
              Project := { Name := "p", Namespace := "g", WebURL := "w" },
              Commits := [], TotalCommits := 0, Branch := thirdComponent "refs/heads/main" }]
        else if (NullCommit : String) = NullCommit then
          [branchCreateRender
            { UserName := "u", BeforeCommit := NullCommit, AfterCommit := "2222222222",
              Project := { Name := "p", Namespace := "g", WebURL := "w" },
              Commits := [], TotalCommits := 0, Branch := thirdComponent "refs/heads/main" }]
        else []) :=
  c8_zero_commit_push
    { UserName := "u", BeforeCommit := NullCommit, AfterCommit := "2222222222",
      Project := { Name := "p", Namespace := "g", WebURL := "w" },
      Commits := [], TotalCommits := 0, Branch := "refs/heads/main" }
    (by decide) rfl

/-- HookActions yields the empty string (the Go map zero value) on every
action outside the five-key table. -/
theorem hookActions_unrecognized (a : String)
    (h : a ∉ ["open", "update", "close", "reopen", "merge"]) : HookActions a = "" := by
  simp only [List.mem_cons, List.not_mem_nil, or_false, not_or] at h
  obtain ⟨h1, h2, h3, h4, h5⟩ := h
  simp [HookActions, beq_iff_eq, h1, h2, h3, h4, h5]

/-- mergeExample is a merge event carrying the real GitLab action keyword
"approved", which is absent from the action-verb table. -/
def mergeExample : MergeEvent :=
  { User := { Name := "alice" },
    Project := { Name := "p", Namespace := "g", WebURL := "w" },
    Merge := { Iid := 5, Action := "approved", Title := "T", URL := "u" } }

/-- Claim C9 (counterexample): for the unrecognized action "approved" the
handler neither passes the raw value through nor fails: the Go map read
yields the zero value, so the message is rendered and delivered with an
EMPTY action verb — a third behaviour different from both documented
options (the second conjunct shows the delivered line differs from the
pass-through rendering). -/
theorem c9_counterexample :
    handleMergeHook (some mergeExample) =
      HandlerResult.ok
        [mergeRender { mergeExample with Merge := { mergeExample.Merge with Action := "" } }] ∧
    mergeRender { mergeExample with Merge := { mergeExample.Merge with Action := "" } } ≠
      mergeRender mergeExample := by decide

/-- Claim C9 (amended): the fallback for an unrecognized action keyword is
neither pass-through nor a render error: the Go map read yields the empty
string, and the merge/issue message is rendered and delivered with an empty
action verb.  Unrecognized status keywords never reach colorization at all:
a pipeline status outside pending/running/success/failed and a job status
outside success/failed are dropped with no message. -/
theorem c9_unrecognized_fallback :
    (∀ ev : MergeEvent, ev.Merge.Action ∉ ["open", "update", "close", "reopen", "merge"] →
      handleMergeHook (some ev) =
        HandlerResult.ok [mergeRender { ev with Merge := { ev.Merge with Action := "" } }]) ∧
    (∀ ev : IssueEvent, ev.Issue.Action ∉ ["open", "update", "close", "reopen", "merge"] →
      handleIssueHook (some ev) =
        HandlerResult.ok [issueRender { ev with Issue := { ev.Issue with Action := "" } }]) ∧
    (∀ ev : PipelineEvent,
      ev.Pipeline.Status ∉ ["pending", "running", "success", "failed"] →
      7 ≤ ev.Pipeline.Commit.length →
      handlePipelineHook (some ev) = HandlerResult.ok []) ∧
    (∀ ev : JobEvent, ev.Status ≠ "success" → ev.Status ≠ "failed" →
      handleJobHook (some ev) = HandlerResult.ok []) := by
  refine ⟨?_, ?_, ?_, ?_⟩
  · intro ev h
    simp [handleMergeHook, hookActions_unrecognized _ h]
  · intro ev h
    simp [handleIssueHook, hookActions_unrecognized _ h]
  · intro ev h hlen
    have hl : 7 ≤ ev.Pipeline.Commit.data.length := hlen
    simp only [List.mem_cons, List.not_mem_nil, or_false, not_or] at h
    obtain ⟨n1, n2, n3, n4⟩ := h
    simp [handlePipelineHook, goStringSlice, hl, hlen, beq_iff_eq, n1, n2, n3, n4]
  · intro ev h1 h2
    have b1 : (ev.Status == "success") = false := beq_eq_false_iff_ne.mpr h1
    have b2 : (ev.Status == "failed") = false := beq_eq_false_iff_ne.mpr h2
    simp [handleJobHook, bne, b1, b2]

/-- Claim C9 witness: the amended theorem applied to concrete events — a
merge with action "approved", an issue with action "approved", a pipeline
with status "created" and a job with status "created". -/
theorem c9_unrecognized_fallback_witness :
    handleMergeHook (some mergeExample) =
      HandlerResult.ok
        [mergeRender { mergeExample with Merge := { mergeExample.Merge with Action := "" } }] ∧
    handleIssueHook
        (some { User := { Name := "bob" },
                Project := { Name := "p", Namespace := "g", WebURL := "w" },
                Issue := { Iid := 2, Action := "approved", Title := "T",
                           Description := "d", URL := "u" } }) =
      HandlerResult.ok
        [issueRender { User := { Name := "bob" },
                       Project := { Name := "p", Namespace := "g", WebURL := "w" },
                       Issue := { Iid := 2, Action := "", Title := "T",
                                  Description := "d", URL := "u" } }] ∧
    handlePipelineHook
        (some { Pipeline := { Id := 3, Commit := "abcdefgh", Status := "created",
                              Duration := 0.0 },
                Project := { Name := "p", Namespace := "g", WebURL := "w" } }) =
      HandlerResult.ok [] ∧
    handleJobHook
        (some { Id := 4, Name := "n", Status := "created", Duration := 0.0,
                Commit := "abcdefgh",
                Repository := { Name := "p", Homepage := "h", URL := "git@host:g/p.git" } }) =
      HandlerResult.ok [] :=
  ⟨c9_unrecognized_fallback.1 mergeExample (by decide),
   c9_unrecognized_fallback.2.1 _ (by decide),
   c9_unrecognized_fallback.2.2.1 _ (by decide) (by decide),
   c9_unrecognized_fallback.2.2.2 _ (by decide) (by decide)⟩

/-- Claim C5: a (non-sentinel) push event carrying more than 3 commits
produces exactly, in order: one push-summary line, one commit line for each
of the first 3 commits (the first conjunct records that the truncated list
has exactly 3 elements), and one "and N more commits." line with
N = total − 3. -/
theorem c5_push_commit_truncation (ev : PushEvent)
    (hbr : 3 ≤ (goSplit ev.Branch '/').length)
    (hafter : ev.AfterCommit ≠ NullCommit)
    (hbefore : ev.BeforeCommit ≠ NullCommit)
    (hblen : 7 ≤ ev.BeforeCommit.length)
    (halen : 7 ≤ ev.AfterCommit.length)
    (hcount : ev.TotalCommits = (ev.Commits.length : Int))
    (hmany : 3 < ev.TotalCommits)
    (hids : ∀ c ∈ ev.Commits, 7 ≤ c.Id.length) :
    (ev.Commits.take 3).length = 3 ∧
    handlePush ev =
      HandlerResult.ok
        (pushCompareRender
            { ev with Branch := thirdComponent ev.Branch,
                      BeforeCommit := String.mk (ev.BeforeCommit.data.take 7),
                      AfterCommit := String.mk (ev.AfterCommit.data.take 7) } ::
          ((ev.Commits.take 3).map expectedCommitLine ++
            ["and " ++ toString (ev.TotalCommits - 3) ++ " more commits."])) := by
  have hlen3 : 3 ≤ ev.Commits.length := by omega
  constructor
  · rw [List.length_take]; omega
  · have ba : (ev.AfterCommit == NullCommit) = false := beq_eq_false_iff_ne.mpr hafter
    have bb : (ev.BeforeCommit == NullCommit) = false := beq_eq_false_iff_ne.mpr hbefore
    have hbl : 7 ≤ ev.BeforeCommit.data.length := hblen
    have hal : 7 ≤ ev.AfterCommit.data.length := halen
    have h0 : (0 : Int) < ev.TotalCommits := by omega
    have hids3 : ∀ c ∈ ev.Commits.take 3, 7 ≤ c.Id.length :=
      fun c hc => hids c (List.mem_of_mem_take hc)
    unfold handlePush
    rw [extractBranch_eq_third ev.Branch hbr]
    simp [pushRest, goStringSlice, ba, bb, hbl, hal, hblen, halen, h0, hmany, hlen3,
      renderCommitLines_ok _ hids3]

/-- pushExample is a concrete non-sentinel push event carrying 5 commits. -/
def pushExample : PushEvent :=
  { UserName := "u", BeforeCommit := "1111111111", AfterCommit := "2222222222",
    Project := { Name := "p", Namespace := "g", WebURL := "w" },
    Commits :=
      [{ Id := "aaaaaaa1x", Message := "m1", Added := ["f"], Modified := [], Removed := [],
         Author := { Name := "a1" } },
       { Id := "aaaaaaa2x", Message := "m2", Added := [], Modified := ["f"], Removed := [],
         Author := { Name := "a2" } },
       { Id := "aaaaaaa3x", Message := "m3", Added := [], Modified := [], Removed := ["f"],
         Author := { Name := "a3" } },
       { Id := "aaaaaaa4x", Message := "m4", Added := [], Modified := [], Removed := [],
         Author := { Name := "a4" } },
       { Id := "aaaaaaa5x", Message := "m5", Added := [], Modified := [], Removed := [],
         Author := { Name := "a5" } }],
    TotalCommits := 5, Branch := "refs/heads/main" }

/-- Claim C5 witness: the theorem at the concrete 5-commit push event; the
trailing line evaluates to "and 2 more commits.". -/
theorem c5_push_commit_truncation_witness :
    (pushExample.Commits.take 3).length = 3 ∧
    handlePush pushExample =
      HandlerResult.ok
        (pushCompareRender
            { pushExample with
                Branch := thirdComponent pushExample.Branch,
                BeforeCommit := String.mk (pushExample.BeforeCommit.data.take 7),
                AfterCommit := String.mk (pushExample.AfterCommit.data.take 7) } ::
          ((pushExample.Commits.take 3).map expectedCommitLine ++
            ["and " ++ toString (pushExample.TotalCommits - 3) ++ " more commits."])) :=
  c5_push_commit_truncation pushExample (by decide) (by decide) (by decide) (by decide)
    (by decide) (by decide) (by decide) (by decide)

/-- Claim C6: a push whose before hash is the 40-zero sentinel and whose
after hash is real produces exactly one branch-create line, then — only when
the commit count is positive — one push-summary line (the commit-log form),
up to 3 commit lines, and the "more commits" line only above 3.  The
sentinel comparison happens on the raw hashes, before any shortening: no
hypothesis bounds the after-hash length, because this path never slices the
before/after hashes (slicing a short hash would panic). -/
theorem c6_branch_create_push (ev : PushEvent)
    (hbr : 3 ≤ (goSplit ev.Branch '/').length)
    (hbefore : ev.BeforeCommit = NullCommit)
    (hafter : ev.AfterCommit ≠ NullCommit)
    (hcount : ev.TotalCommits = (ev.Commits.length : Int))
    (hids : ∀ c ∈ ev.Commits, 7 ≤ c.Id.length) :
    handlePush ev =
      HandlerResult.ok
        (branchCreateRender { ev with Branch := thirdComponent ev.Branch } ::
          (if 0 < ev.TotalCommits then
            pushCommitLogRender { ev with Branch := thirdComponent ev.Branch } ::
              ((ev.Commits.take 3).map expectedCommitLine ++
                (if 3 < ev.TotalCommits then
                  ["and " ++ toString (ev.TotalCommits - 3) ++ " more commits."]
                else []))
          else [])) := by
  have ba : (ev.AfterCommit == NullCommit) = false := beq_eq_false_iff_ne.mpr hafter
  have bb : (ev.BeforeCommit == NullCommit) = true := beq_iff_eq.mpr hbefore
  unfold handlePush
  rw [extractBranch_eq_third ev.Branch hbr]
  by_cases h0 : 0 < ev.TotalCommits
  · by_cases h3 : 3 < ev.TotalCommits
    · have hlen3 : 3 ≤ ev.Commits.length := by omega
      have hids3 : ∀ c ∈ ev.Commits.take 3, 7 ≤ c.Id.length :=
        fun c hc => hids c (List.mem_of_mem_take hc)
      simp [pushRest, ba, bb, h0, h3, hlen3, renderCommitLines_ok _ hids3]
    · have htake : ev.Commits.take 3 = ev.Commits := List.take_of_length_le (by omega)
      simp [pushRest, ba, bb, h0, h3, htake, renderCommitLines_ok _ hids]
  · simp [pushRest, ba, bb, h0]

/-- pushCreateExample is a concrete branch-creation push: sentinel before
hash, a 3-character after hash (short enough that any shortening would
panic), a 4-component ref and one commit. -/
def pushCreateExample : PushEvent :=
  { UserName := "u", BeforeCommit := NullCommit, AfterCommit := "abc",
    Project := { Name := "p", Namespace := "g", WebURL := "w" },
    Commits :=
      [{ Id := "ccccccc1", Message := "m", Added := [], Modified := [], Removed := [],
         Author := { Name := "a" } }],
    TotalCommits := 1, Branch := "refs/heads/feature/x" }

/-- Claim C6 witness: the theorem at the concrete branch-creation push; its
3-character after hash confirms that the sentinel check precedes (and here
entirely avoids) hash shortening. -/
theorem c6_branch_create_push_witness :
    handlePush pushCreateExample =
      HandlerResult.ok
        (branchCreateRender { pushCreateExample with
            Branch := thirdComponent pushCreateExample.Branch } ::
          (if 0 < pushCreateExample.TotalCommits then
            pushCommitLogRender { pushCreateExample with
                Branch := thirdComponent pushCreateExample.Branch } ::
              ((pushCreateExample.Commits.take 3).map expectedCommitLine ++
                (if 3 < pushCreateExample.TotalCommits then
                  ["and " ++ toString (pushCreateExample.TotalCommits - 3) ++ " more commits."]
                else []))
          else [])) :=
  c6_branch_create_push pushCreateExample (by decide) (by decide) (by decide)
    (by decide) (by decide)

end GitlabIrc
